import Mathlib

/-!
# Verification of the calendar-finance-widget ledger core

Shallow embedding of the data model and operations of `src/main.py`:
the `Transaction` record with its JSON (de)serialization, the
`FinanceBook` ledger with its query/aggregation methods, and the
`load_book` persistence entry point.  Python floats are modelled as
rationals, Python `datetime.date` as a triple of naturals together with
the validity predicate that the `date` constructor enforces, and JSON
scalar values by a small inductive type.
-/

namespace Finance

/-- A JSON scalar value, as far as the persisted records need:
strings and numbers (Python floats are modelled as rationals). -/
inductive Json where
  | str (s : String)
  | num (q : Rat)
  deriving DecidableEq, Repr

/-- Python `str(...)` applied to a decoded JSON scalar.  On strings it is
the identity (the only case the records in this development exercise);
for numbers we render the rational (Python would render the float). -/
def pyStr : Json → String
  | .str s => s
  | .num q => toString q

/-- Value of a nonempty digit string, most significant digit first. -/
def decimalVal (cs : List Char) : Nat :=
  cs.foldl (fun acc c => 10 * acc + (c.toNat - 48)) 0

/-- Python `float(...)` applied to a string, restricted to plain decimal
literals with an optional sign (`"12"`, `"-3.5"`, `"1."`, `".5"`).
Python additionally accepts exponent forms, `inf`/`nan` and surrounding
whitespace; no persisted record in this development uses those. -/
def parseFloatStr (s : String) : Option Rat :=
  let signBody : Rat × List Char :=
    match s.data with
    | '-' :: rest => (-1, rest)
    | '+' :: rest => (1, rest)
    | cs => (1, cs)
  match signBody.2.splitOn '.' with
  | [ip] =>
      if ip ≠ [] ∧ ip.all Char.isDigit then
        some (signBody.1 * decimalVal ip)
      else none
  | [ip, fp] =>
      if (ip ≠ [] ∨ fp ≠ []) ∧ ip.all Char.isDigit ∧ fp.all Char.isDigit then
        some (signBody.1 * ((decimalVal ip : Rat) + decimalVal fp / 10 ^ fp.length))
      else none
  | _ => none

/-- Python `float(...)` applied to a decoded JSON scalar: numbers pass
through, strings are parsed as decimal literals. -/
def pyFloat : Json → Option Rat
  | .num q => some q
  | .str s => parseFloatStr s

/-- A calendar date as stored in a Python `datetime.date`:
year, month, day. -/
structure Date where
  year : Nat
  month : Nat
  day : Nat
  deriving DecidableEq, Repr

/-- Leap years of the proleptic Gregorian calendar
(as in Python's `calendar.isleap`). -/
def isLeap (y : Nat) : Bool :=
  (y % 4 == 0 && y % 100 != 0) || y % 400 == 0

/-- Number of days of month `m` of year `y`. -/
def daysInMonth (y m : Nat) : Nat :=
  if m = 2 then (if isLeap y then 29 else 28)
  else if m = 4 ∨ m = 6 ∨ m = 9 ∨ m = 11 then 30
  else 31

/-- The invariant Python's `datetime.date` constructor enforces:
`MINYEAR = 1 ≤ year ≤ 9999 = MAXYEAR`, a real month and a real day. -/
def Date.Valid (d : Date) : Prop :=
  1 ≤ d.year ∧ d.year ≤ 9999 ∧ 1 ≤ d.month ∧ d.month ≤ 12 ∧
    1 ≤ d.day ∧ d.day ≤ daysInMonth d.year d.month

instance (d : Date) : Decidable d.Valid := by
  unfold Date.Valid; infer_instance

/-- Python `date.isoformat()`: the `YYYY-MM-DD` rendering, zero padded
(a Python date year is at most 9999, so four digits always suffice). -/
def isoformat (d : Date) : String :=
  ⟨[Nat.digitChar (d.year / 1000 % 10), Nat.digitChar (d.year / 100 % 10),
    Nat.digitChar (d.year / 10 % 10), Nat.digitChar (d.year % 10), '-',
    Nat.digitChar (d.month / 10 % 10), Nat.digitChar (d.month % 10), '-',
    Nat.digitChar (d.day / 10 % 10), Nat.digitChar (d.day % 10)]⟩

/-- Value of a digit character. -/
def digitVal (c : Char) : Option Nat :=
  if c.isDigit then some (c.toNat - 48) else none

/-- Python `datetime.fromisoformat` restricted to calendar dates: parses exactly
the `YYYY-MM-DD` shape and validates the ranges the `date` constructor
enforces, returning `none` (Python: `ValueError`) otherwise. -/
def fromisoformat (s : String) : Option Date :=
  match s.data with
  | [y1, y2, y3, y4, '-', m1, m2, '-', d1, d2] => do
      let a ← digitVal y1
      let b ← digitVal y2
      let c ← digitVal y3
      let e ← digitVal y4
      let f ← digitVal m1
      let g ← digitVal m2
      let h ← digitVal d1
      let i ← digitVal d2
      let y := ((a * 10 + b) * 10 + c) * 10 + e
      let mo := f * 10 + g
      let da := h * 10 + i
      if 1 ≤ y ∧ 1 ≤ mo ∧ mo ≤ 12 ∧ 1 ≤ da ∧ da ≤ daysInMonth y mo then
        some ⟨y, mo, da⟩
      else none
  | _ => none

/-- The `Transaction` dataclass of `src/main.py`: a dated money movement.
`kind` is a plain string (the source stores `"income"` or `"expense"`
but the type does not enforce it). -/
structure Transaction where
  date : Date
  amount : Rat
  party : String
  category : String
  kind : String
  deriving DecidableEq, Repr

/-- A decoded JSON object holding (at most) the five transaction fields;
`none` models an absent key (`data["k"]` raises `KeyError`,
`data.get("k", d)` falls back to `d`). -/
structure RawRecord where
  date : Option Json
  amount : Option Json
  party : Option Json
  category : Option Json
  kind : Option Json
  deriving DecidableEq, Repr

/-- Serialization `Transaction.to_json`: `asdict` with the date rendered by
`isoformat`. -/
def Transaction.to_json (t : Transaction) : RawRecord :=
  ⟨some (.str (isoformat t.date)), some (.num t.amount), some (.str t.party),
    some (.str t.category), some (.str t.kind)⟩

/-- Deserialization `Transaction.from_json`, with Python's evaluation order: `date` is
parsed first (`KeyError` when absent, `fromisoformat` failure otherwise),
then `amount` through `float(...)`, then the `kind` lookup; `party` and
`category` default to `""` and every field reaching `str(...)` is
accepted unvalidated. -/
def Transaction.from_json (r : RawRecord) : Except String Transaction :=
  match r.date with
  | none => .error "KeyError: date"
  | some dj =>
    match dj with
    | .num _ => .error "TypeError: fromisoformat argument must be str"
    | .str ds =>
      match fromisoformat ds with
      | none => .error "ValueError: invalid isoformat string"
      | some d =>
        match r.amount with
        | none => .error "KeyError: amount"
        | some aj =>
          match pyFloat aj with
          | none => .error "ValueError: could not convert string to float"
          | some a =>
            match r.kind with
            | none => .error "KeyError: kind"
            | some kj =>
              .ok ⟨d, a, pyStr (r.party.getD (.str "")),
                    pyStr (r.category.getD (.str "")), pyStr kj⟩

/-- The `FinanceBook` ledger: an ordered sequence of transactions. -/
structure FinanceBook where
  transactions : List Transaction
  deriving DecidableEq, Repr

namespace FinanceBook

/-- Method `FinanceBook.add`: append at the end of the sequence. -/
def add (b : FinanceBook) (tx : Transaction) : FinanceBook :=
  ⟨b.transactions ++ [tx]⟩

/-- Method `FinanceBook.for_year`: the transactions of `year`,
in storage order. -/
def for_year (b : FinanceBook) (year : Nat) : List Transaction :=
  b.transactions.filter (fun tx => tx.date.year == year)

/-- Method `FinanceBook.for_year_and_month`: `None` month means the whole
year, otherwise restrict further to the given month. -/
def for_year_and_month (b : FinanceBook) (year : Nat) (month : Option Nat) :
    List Transaction :=
  match month with
  | none => b.for_year year
  | some m => b.transactions.filter
      (fun tx => tx.date.year == year && tx.date.month == m)

/-- Method `FinanceBook.all_years`: `sorted({tx.date.year for tx ...})`, and
`[date.today().year]` when that set is empty.  The ambient clock is
passed in as `todayYear`. -/
def all_years (b : FinanceBook) (todayYear : Nat) : List Nat :=
  let years := ((b.transactions.map (fun tx => tx.date.year)).dedup).mergeSort
    (fun a b => decide (a ≤ b))
  if years = [] then [todayYear] else years

/-- One `{income, expense, net}` bucket of the totals dictionaries. -/
structure Totals where
  income : Rat
  expense : Rat
  net : Rat
  deriving DecidableEq, Repr

/-- One step of the accumulation loop of `monthly_totals`: add the
transaction's amount into the `income` slot of its month when
`tx.kind == "income"`, and into the `expense` slot otherwise
(the source's `else` branch catches every non-income kind). -/
def addToBucket (acc : List (Nat × Totals)) (tx : Transaction) :
    List (Nat × Totals) :=
  acc.map (fun p =>
    if p.1 = tx.date.month then
      if tx.kind = "income" then (p.1, ⟨p.2.income + tx.amount, p.2.expense, p.2.net⟩)
      else (p.1, ⟨p.2.income, p.2.expense + tx.amount, p.2.net⟩)
    else p)

/-- Method `FinanceBook.monthly_totals`: initialise the twelve buckets, fold the
year's transactions through them, then set `net = income - expense` on
every bucket. -/
def monthly_totals (b : FinanceBook) (year : Nat) : List (Nat × Totals) :=
  let init := (List.range 12).map (fun i => (i + 1, (⟨0, 0, 0⟩ : Totals)))
  let acc := (b.for_year year).foldl addToBucket init
  acc.map (fun p => (p.1, ⟨p.2.income, p.2.expense, p.2.income - p.2.expense⟩))

/-- Method `FinanceBook.yearly_totals`: sum the monthly buckets. -/
def yearly_totals (b : FinanceBook) (year : Nat) : Totals :=
  let mt := b.monthly_totals year
  let income := (mt.map (fun p => p.2.income)).sum
  let expense := (mt.map (fun p => p.2.expense)).sum
  ⟨income, expense, income - expense⟩

/-- The bucket label of `category_totals`:
`tx.category or "(uncategorized)"`. -/
def bucketLabel (tx : Transaction) : String :=
  if tx.category = "" then "(uncategorized)" else tx.category

/-- One `defaultdict(float)` accumulation step: add `amt` to the entry of
`label`, creating it (at the end, preserving first-seen key order) when
absent. -/
def addCat (acc : List (String × Rat)) (label : String) (amt : Rat) :
    List (String × Rat) :=
  if acc.any (fun p => p.1 == label) then
    acc.map (fun p => if p.1 = label then (p.1, p.2 + amt) else p)
  else acc ++ [(label, amt)]

/-- Method `FinanceBook.category_totals`: bucket the matching transactions'
amounts by label, then `sorted(..., key=value, reverse=True)` — a stable
descending sort by total, modelled by `List.mergeSort`. -/
def category_totals (b : FinanceBook) (year : Nat) (kind : String)
    (month : Option Nat) : List (String × Rat) :=
  let buckets := (b.for_year_and_month year month).foldl
    (fun acc tx => if tx.kind = kind then addCat acc (bucketLabel tx) tx.amount
      else acc) []
  buckets.mergeSort (fun a b => decide (b.2 ≤ a.2))

end FinanceBook

/-- Python's `list.remove(x)` on the transactions list, as invoked by
`FinanceApp.delete_selected`: drop the first element equal to `tx`
(dataclass equality is value equality across all five fields), and raise
`ValueError` when no element is equal to `tx`. -/
def removeFirst (txs : List Transaction) (tx : Transaction) :
    Except String (List Transaction) :=
  match txs with
  | [] => .error "ValueError: list.remove(x): x not in list"
  | t :: rest =>
    if t = tx then .ok rest
    else (removeFirst rest tx).map (fun l => t :: l)

/-- The observable states of the persisted file: absent, present but not
valid JSON, or parsed into a document whose `"transactions"` key holds a
list of records (`none` when the key is absent, in which case
`raw.get("transactions", [])` yields the empty list). -/
inductive FileState where
  | absent
  | unparseable
  | parsed (transactions : Option (List RawRecord))
  deriving DecidableEq, Repr

/-- The list comprehension
`[Transaction.from_json(item) for item in raw.get("transactions", [])]`:
the first record that fails to parse aborts the whole list. -/
def parseAll (l : List RawRecord) : Except String (List Transaction) :=
  match l with
  | [] => .ok []
  | r :: rest =>
    match Transaction.from_json r with
    | .error e => .error e
    | .ok t =>
      match parseAll rest with
      | .error e => .error e
      | .ok ts => .ok (t :: ts)

/-- Loader `load_book`: an absent file yields an empty book; a `try/except`
around parsing turns any failure (unparseable JSON or any single bad
record) into an empty book as well. -/
def load_book (fs : FileState) : FinanceBook :=
  match fs with
  | .absent => ⟨[]⟩
  | .unparseable => ⟨[]⟩
  | .parsed txo =>
    match parseAll (txo.getD []) with
    | .ok txs => ⟨txs⟩
    | .error _ => ⟨[]⟩

instance {ε α : Type} [DecidableEq ε] [DecidableEq α] : DecidableEq (Except ε α) :=
  fun a b =>
    match a, b with
    | .ok x, .ok y =>
      if h : x = y then isTrue (by rw [h]) else isFalse (by intro hh; cases hh; exact h rfl)
    | .error x, .error y =>
      if h : x = y then isTrue (by rw [h]) else isFalse (by intro hh; cases hh; exact h rfl)
    | .ok _, .error _ => isFalse (by intro h; cases h)
    | .error _, .ok _ => isFalse (by intro h; cases h)

theorem digitVal_digitChar : ∀ n < 10, digitVal (Nat.digitChar n) = some n := by
  decide

theorem digitVal_digitChar_mod (x : Nat) :
    digitVal (Nat.digitChar (x % 10)) = some (x % 10) :=
  digitVal_digitChar _ (Nat.mod_lt _ (by omega))

theorem daysInMonth_le (y m : Nat) : daysInMonth y m ≤ 31 := by
  unfold daysInMonth
  split
  · split <;> omega
  · split <;> omega

theorem fromisoformat_isoformat (d : Date) (h : d.Valid) :
    fromisoformat (isoformat d) = some d := by
  obtain ⟨h1, h2, h3, h4, h5, h6⟩ := h
  have h31 : d.day ≤ 31 := le_trans h6 (daysInMonth_le d.year d.month)
  have e1 : d.year / 10 / 10 = d.year / 100 := by rw [Nat.div_div_eq_div_mul]
  have e2 : d.year / 100 / 10 = d.year / 1000 := by rw [Nat.div_div_eq_div_mul]
  have hy : ((d.year / 1000 % 10 * 10 + d.year / 100 % 10) * 10 + d.year / 10 % 10) * 10
      + d.year % 10 = d.year := by omega
  have hm : d.month / 10 % 10 * 10 + d.month % 10 = d.month := by omega
  have hd : d.day / 10 % 10 * 10 + d.day % 10 = d.day := by omega
  simp only [fromisoformat, isoformat, digitVal_digitChar_mod, Option.bind_eq_bind,
    Option.some_bind, hy, hm, hd]
  rw [if_pos ⟨h1, h3, h4, h5, h6⟩]

theorem from_json_to_json (t : Transaction) (h : t.date.Valid) :
    Transaction.from_json t.to_json = .ok t := by
  simp only [Transaction.to_json, Transaction.from_json, fromisoformat_isoformat t.date h,
    pyFloat, pyStr, Option.getD]

theorem removeFirst_of_mem {txs : List Transaction} {tx : Transaction} (h : tx ∈ txs) :
    ∃ l1 l2, txs = l1 ++ tx :: l2 ∧ tx ∉ l1 ∧ removeFirst txs tx = .ok (l1 ++ l2) := by
  induction txs with
  | nil => cases h
  | cons t rest ih =>
    by_cases ht : t = tx
    · subst ht
      exact ⟨[], rest, rfl, List.not_mem_nil t, by unfold removeFirst; rw [if_pos rfl]; rfl⟩
    · have hmem : tx ∈ rest := by
        rcases List.mem_cons.mp h with h' | h'
        · exact absurd h'.symm ht
        · exact h'
      obtain ⟨l1, l2, he, hnm, hr⟩ := ih hmem
      refine ⟨t :: l1, l2, by rw [he]; rfl, ?_, ?_⟩
      · intro hc
        rcases List.mem_cons.mp hc with h' | h'
        · exact ht h'.symm
        · exact hnm h'
      · unfold removeFirst
        rw [if_neg ht, hr]
        rfl

theorem removeFirst_of_not_mem {txs : List Transaction} {tx : Transaction} (h : tx ∉ txs) :
    removeFirst txs tx = .error "ValueError: list.remove(x): x not in list" := by
  induction txs with
  | nil => rfl
  | cons t rest ih =>
    have ht : ¬ t = tx := fun he => h (he ▸ List.mem_cons_self t rest)
    have hrest : tx ∉ rest := fun hm => h (List.mem_cons_of_mem t hm)
    unfold removeFirst
    rw [if_neg ht, ih hrest]
    rfl

/-- C1: `delete_selected` removes a transaction with `list.remove`, which
drops exactly the first structurally-equal occurrence (value equality on
all five fields), leaving later duplicates in place; when no
structurally-equal transaction is present it raises `ValueError` — it is
not a silent no-op. -/
theorem claim_C1_remove_first_or_error (txs : List Transaction) (tx : Transaction) :
    (tx ∈ txs → ∃ l1 l2, txs = l1 ++ tx :: l2 ∧ tx ∉ l1 ∧
      removeFirst txs tx = .ok (l1 ++ l2)) ∧
    (tx ∉ txs → removeFirst txs tx = .error "ValueError: list.remove(x): x not in list") :=
  ⟨fun h => removeFirst_of_mem h, fun h => removeFirst_of_not_mem h⟩

/-- A sample income transaction of 2024-01-15. -/
def txA : Transaction := ⟨⟨2024, 1, 15⟩, 100, "", "", "income"⟩

/-- A sample expense transaction of 2024-01-20. -/
def txB : Transaction := ⟨⟨2024, 1, 20⟩, 40, "", "Food", "expense"⟩

theorem claim_C1_witness :
    (∃ l1 l2, ([txA, txB, txA] : List Transaction) = l1 ++ txA :: l2 ∧ txA ∉ l1 ∧
      removeFirst [txA, txB, txA] txA = .ok (l1 ++ l2)) ∧
    removeFirst [txB] txA = .error "ValueError: list.remove(x): x not in list" :=
  ⟨(claim_C1_remove_first_or_error [txA, txB, txA] txA).1 (by decide),
   (claim_C1_remove_first_or_error [txB] txA).2 (by decide)⟩

/-- C1 counterexample: removing a transaction that is absent from the
sequence raises `ValueError`; it does not return the sequence
unchanged. -/
theorem claim_C1_counterexample :
    removeFirst [] txA = .error "ValueError: list.remove(x): x not in list" ∧
    removeFirst [] txA ≠ .ok [] := by
  exact ⟨rfl, by decide⟩

/-- Sum of the `amount` fields of a list of transactions. -/
def sumAmounts (l : List Transaction) : Rat :=
  (l.map (fun tx => tx.amount)).sum

/-- Written from the spec's words: the sum of `amount` over the
transactions of `l` whose month is `m` and whose kind is exactly
`kind`. -/
def specMonthKindSum (l : List Transaction) (m : Nat) (kind : String) : Rat :=
  sumAmounts (l.filter (fun tx => tx.date.month == m && tx.kind == kind))

/-- What the source accumulates into the expense bucket: the sum of
`amount` over the transactions of `l` whose month is `m` and whose kind
is anything other than `"income"`. -/
def monthNonIncomeSum (l : List Transaction) (m : Nat) : Rat :=
  sumAmounts (l.filter (fun tx => tx.date.month == m && tx.kind != "income"))

theorem totals_eta (t : FinanceBook.Totals) :
    (⟨t.income, t.expense, t.net⟩ : FinanceBook.Totals) = t := rfl

theorem foldl_addToBucket (l : List Transaction) (acc : List (Nat × FinanceBook.Totals)) :
    l.foldl FinanceBook.addToBucket acc = acc.map (fun p =>
      (p.1, ⟨p.2.income + specMonthKindSum l p.1 "income",
             p.2.expense + monthNonIncomeSum l p.1, p.2.net⟩)) := by
  induction l generalizing acc with
  | nil =>
    simp only [List.foldl_nil, specMonthKindSum, monthNonIncomeSum, sumAmounts,
      List.filter_nil, List.map_nil, List.sum_nil, add_zero]
    rw [show (fun p : Nat × FinanceBook.Totals =>
        (p.1, (⟨p.2.income, p.2.expense, p.2.net⟩ : FinanceBook.Totals))) = id from rfl]
    rw [List.map_id]
  | cons tx l ih =>
    rw [List.foldl_cons, ih, FinanceBook.addToBucket, List.map_map]
    apply List.map_congr_left
    intro p _
    by_cases hm : p.1 = tx.date.month
    · by_cases hk : tx.kind = "income"
      · simp only [Function.comp, hm, hk, if_pos rfl, specMonthKindSum,
          monthNonIncomeSum, sumAmounts, List.filter_cons]
        simp only [hm.symm, hk, beq_self_eq_true, Bool.and_self, if_pos,
          List.map_cons, List.sum_cons, bne_self_eq_false, Bool.and_false,
          Bool.false_eq_true, if_neg, decide_True]
        simp [add_assoc]
      · simp only [Function.comp, hm, hk, if_pos rfl, if_neg hk, specMonthKindSum,
          monthNonIncomeSum, sumAmounts, List.filter_cons]
        have hk' : (tx.kind == "income") = false := by
          simp [hk]
        simp only [hm.symm, hk', beq_self_eq_true, Bool.and_false, Bool.and_true,
          Bool.false_eq_true, if_neg, List.map_cons, List.sum_cons,
          bne_eq_false_iff_eq, decide_True, Bool.true_and]
        simp [hk, add_assoc]
    · have hm' : (tx.date.month == p.1) = false := by
        rw [beq_eq_false_iff_ne]
        exact fun h => hm h.symm
      simp only [Function.comp, if_neg hm, specMonthKindSum, monthNonIncomeSum,
        sumAmounts, List.filter_cons, hm', Bool.false_and, Bool.false_eq_true,
        if_neg]
      simp

theorem monthly_totals_eq (b : FinanceBook) (year : Nat) :
    b.monthly_totals year = (List.range 12).map (fun i =>
      (i + 1, ⟨specMonthKindSum (b.for_year year) (i + 1) "income",
               monthNonIncomeSum (b.for_year year) (i + 1),
               specMonthKindSum (b.for_year year) (i + 1) "income" -
                 monthNonIncomeSum (b.for_year year) (i + 1)⟩)) := by
  unfold FinanceBook.monthly_totals
  simp only [foldl_addToBucket, List.map_map]
  apply List.map_congr_left
  intro i _
  simp

/-- C4 (amended): for a ledger of well-formed Python dates,
`monthly_totals(year)` has exactly the twelve months 1..12 as keys; each
month's `income` is the sum of `amount` over that month's transactions
with `kind = "income"`, each month's `expense` is the sum over that
month's transactions with any kind *other than* `"income"` (the
source's `else` branch, which coincides with `kind = "expense"` only
when every kind is one of the two literals), and `net = income -
expense`. -/
theorem claim_C4_monthly_totals (b : FinanceBook) (year : Nat)
    (_hM : ∀ tx ∈ b.transactions, 1 ≤ tx.date.month ∧ tx.date.month ≤ 12) :
    ((b.monthly_totals year).map Prod.fst = [1, 2, 3, 4, 5, 6, 7, 8, 9, 10, 11, 12]) ∧
    (∀ m t, (m, t) ∈ b.monthly_totals year →
      t.income = specMonthKindSum (b.for_year year) m "income" ∧
      t.expense = monthNonIncomeSum (b.for_year year) m ∧
      t.net = t.income - t.expense) := by
  rw [monthly_totals_eq]
  constructor
  · rw [List.map_map]
    rfl
  · intro m t hmt
    rcases List.mem_map.mp hmt with ⟨i, _, hi⟩
    cases hi
    exact ⟨rfl, rfl, rfl⟩

/-- Ledger holding a single transaction whose kind is the string
`"transfer"`, neither `"income"` nor `"expense"`. -/
def exKindBook : FinanceBook := ⟨[⟨⟨2024, 3, 10⟩, 7, "", "", "transfer"⟩]⟩

/-- C4 counterexample: with a transaction of kind `"transfer"` in March,
the March bucket reports `expense = 7` although the sum of `amount` over
March transactions with `kind = "expense"` is `0` — the code counts
every non-income kind as expense. -/
theorem claim_C4_counterexample :
    (3, (⟨0, 7, -7⟩ : FinanceBook.Totals)) ∈ exKindBook.monthly_totals 2024 ∧
    specMonthKindSum (exKindBook.for_year 2024) 3 "expense" = 0 := by
  constructor
  · rw [monthly_totals_eq]
    refine List.mem_map.mpr ⟨2, by simp, ?_⟩
    simp [specMonthKindSum, monthNonIncomeSum, sumAmounts, exKindBook,
      FinanceBook.for_year, List.filter_cons]
  · simp [specMonthKindSum, sumAmounts, exKindBook,
      FinanceBook.for_year, List.filter_cons]

/-- The scenario ledger of the spec: an income of 100 and an expense of
40 in January 2024, an expense of 10 in February 2024. -/
def txBook : FinanceBook := ⟨[
  ⟨⟨2024, 1, 15⟩, 100, "", "", "income"⟩,
  ⟨⟨2024, 1, 20⟩, 40, "", "Food", "expense"⟩,
  ⟨⟨2024, 2, 1⟩, 10, "", "Food", "expense"⟩]⟩

theorem claim_C4_witness :
    ((txBook.monthly_totals 2024).map Prod.fst = [1, 2, 3, 4, 5, 6, 7, 8, 9, 10, 11, 12]) ∧
    (∀ m t, (m, t) ∈ txBook.monthly_totals 2024 →
      t.income = specMonthKindSum (txBook.for_year 2024) m "income" ∧
      t.expense = monthNonIncomeSum (txBook.for_year 2024) m ∧
      t.net = t.income - t.expense) :=
  claim_C4_monthly_totals txBook 2024 (by decide)

/-- C6: the yearly totals are the sums of the twelve monthly buckets,
and `net = income - expense`. -/
theorem claim_C6_yearly_totals (b : FinanceBook) (year : Nat) :
    (b.yearly_totals year).income = ((b.monthly_totals year).map (fun p => p.2.income)).sum ∧
    (b.yearly_totals year).expense = ((b.monthly_totals year).map (fun p => p.2.expense)).sum ∧
    (b.yearly_totals year).net = (b.yearly_totals year).income - (b.yearly_totals year).expense :=
  ⟨rfl, rfl, rfl⟩

theorem from_json_ok_kind (r : RawRecord) (t : Transaction)
    (h : Transaction.from_json r = .ok t) : ∃ j, r.kind = some j ∧ t.kind = pyStr j := by
  unfold Transaction.from_json at h
  split at h
  · exact Except.noConfusion h
  · split at h
    · exact Except.noConfusion h
    · split at h
      · exact Except.noConfusion h
      · split at h
        · exact Except.noConfusion h
        · split at h
          · exact Except.noConfusion h
          · split at h
            · exact Except.noConfusion h
            · rename_i kj hk
              cases h
              exact ⟨kj, hk, rfl⟩

/-- C2 (amended): deserialization fails whenever the `kind` key is
missing, but a record whose `kind` is present is accepted with
`str(...)` applied and no validation at all, so `from_json` can return a
transaction whose kind is outside `{"income", "expense"}`. -/
theorem claim_C2_kind_unvalidated (r : RawRecord) :
    (r.kind = none → ∀ t, Transaction.from_json r ≠ .ok t) ∧
    (∀ t, Transaction.from_json r = .ok t → ∃ j, r.kind = some j ∧ t.kind = pyStr j) := by
  constructor
  · intro hk t h
    obtain ⟨j, hj, _⟩ := from_json_ok_kind r t h
    rw [hk] at hj
    cases hj
  · exact fun t h => from_json_ok_kind r t h

/-- A record with a valid date and amount and no `kind` key. -/
def noKindRec : RawRecord :=
  ⟨some (.str "2024-01-15"), some (.num 3), none, none, none⟩

/-- A record with a valid date and amount whose kind is the string
`"banana"`. -/
def bananaRec : RawRecord :=
  ⟨some (.str "2024-01-15"), some (.num 3), none, none, some (.str "banana")⟩

/-- The transaction `bananaRec` deserializes to. -/
def bananaTx : Transaction := ⟨⟨2024, 1, 15⟩, 3, "", "", "banana"⟩

theorem claim_C2_witness :
    (∀ t, Transaction.from_json noKindRec ≠ .ok t) ∧
    (∃ j, bananaRec.kind = some j ∧ bananaTx.kind = pyStr j) :=
  ⟨(claim_C2_kind_unvalidated noKindRec).1 rfl,
   (claim_C2_kind_unvalidated bananaRec).2 bananaTx rfl⟩

/-- C2 counterexample: a record whose `kind` is the invalid string
`"banana"` deserializes successfully to a transaction whose kind is
neither `"income"` nor `"expense"`. -/
theorem claim_C2_counterexample :
    Transaction.from_json bananaRec = .ok bananaTx ∧
    bananaTx.kind ≠ "income" ∧ bananaTx.kind ≠ "expense" :=
  ⟨rfl, by decide, by decide⟩

theorem parseAll_error_of_mem {l : List RawRecord} {r : RawRecord} {e : String}
    (hr : r ∈ l) (he : Transaction.from_json r = .error e) :
    ∃ e', parseAll l = .error e' := by
  induction l with
  | nil => cases hr
  | cons a l ih =>
    unfold parseAll
    rcases List.mem_cons.mp hr with h | h
    · subst h
      rw [he]
      exact ⟨e, rfl⟩
    · cases ha : Transaction.from_json a with
      | error e'' => exact ⟨e'', rfl⟩
      | ok t =>
        obtain ⟨e', hpe⟩ := ih h
        rw [hpe]
        exact ⟨e', rfl⟩

/-- C3: `load_book` yields the empty ledger when the file is absent,
when its content is not parseable, and when any single record of a
parsed file fails to deserialize — the whole load is discarded, no
partially-loaded ledger and no error escapes. -/
theorem claim_C3_load_all_or_nothing (fs : FileState) :
    (fs = .absent → load_book fs = ⟨[]⟩) ∧
    (fs = .unparseable → load_book fs = ⟨[]⟩) ∧
    (∀ txo, fs = .parsed txo →
      (∃ r ∈ txo.getD [], ∃ e, Transaction.from_json r = .error e) →
      load_book fs = ⟨[]⟩) := by
  refine ⟨fun h => by rw [h]; rfl, fun h => by rw [h]; rfl, ?_⟩
  intro txo hfs hex
  obtain ⟨r, hr, e, he⟩ := hex
  obtain ⟨e', hpe⟩ := parseAll_error_of_mem hr he
  subst hfs
  simp only [load_book, hpe]

/-- A record whose amount is the non-numeric string `"abc"`. -/
def badAmountRec : RawRecord :=
  ⟨some (.str "2024-01-15"), some (.str "abc"), none, none, some (.str "income")⟩

theorem claim_C3_witness :
    load_book .absent = ⟨[]⟩ ∧ load_book .unparseable = ⟨[]⟩ ∧
    load_book (.parsed (some [⟨some (.str "2024-01-15"), some (.num 100), none, none,
      some (.str "income")⟩, badAmountRec])) = ⟨[]⟩ :=
  ⟨(claim_C3_load_all_or_nothing .absent).1 rfl,
   (claim_C3_load_all_or_nothing .unparseable).2.1 rfl,
   (claim_C3_load_all_or_nothing _).2.2 _ rfl
     ⟨badAmountRec, by decide, "ValueError: could not convert string to float", rfl⟩⟩

/-- The record the C9 claim feeds to deserialization: a valid date and
kind with the negative amount `-5`. -/
def negRec : RawRecord :=
  ⟨some (.str "2024-01-15"), some (.num (-5)), none, none, some (.str "expense")⟩

/-- The transaction `negRec` deserializes to. -/
def negTx : Transaction := ⟨⟨2024, 1, 15⟩, -5, "", "", "expense"⟩

/-- C9: `from_json` performs no sign check: a record with a negative
amount deserializes successfully, and `load_book` then produces a ledger
state violating the `amount >= 0` invariant. -/
theorem claim_C9_negative_amount_accepted :
    Transaction.from_json negRec = .ok negTx ∧
    negTx.amount = -5 ∧ negTx.amount < 0 ∧
    load_book (.parsed (some [negRec])) = ⟨[negTx]⟩ ∧
    ¬ (∀ tx ∈ (load_book (.parsed (some [negRec]))).transactions, 0 ≤ tx.amount) := by
  refine ⟨rfl, rfl, by norm_num [negTx], rfl, ?_⟩
  intro h
  have := h negTx (by rw [show load_book (.parsed (some [negRec])) = ⟨[negTx]⟩ from rfl]; exact List.mem_singleton.mpr rfl)
  norm_num [negTx] at this

/-- C7: serializing a transaction, deserializing the result and
serializing again reproduces the serialized record exactly. -/
theorem claim_C7_serialize_roundtrip (t : Transaction) (h : t.date.Valid) :
    (Transaction.from_json t.to_json).map Transaction.to_json = .ok t.to_json := by
  rw [from_json_to_json t h]
  rfl

theorem claim_C7_witness :
    (Transaction.from_json txB.to_json).map Transaction.to_json = .ok txB.to_json :=
  claim_C7_serialize_roundtrip txB (by decide)

/-- The result of calling a `FinanceBook` method, paired with the value
of `self.transactions` after the call.  The bodies of the six query
methods in the source contain no assignment and no mutating call on
`self.transactions`, so the post-state is the receiver itself. -/
def run_all_years (b : FinanceBook) (todayYear : Nat) : List Nat × FinanceBook :=
  (b.all_years todayYear, b)

/-- Method `for_year` as a call on the receiver: result and post-state. -/
def run_for_year (b : FinanceBook) (year : Nat) : List Transaction × FinanceBook :=
  (b.for_year year, b)

/-- Method `for_year_and_month` as a call on the receiver. -/
def run_for_year_and_month (b : FinanceBook) (year : Nat) (month : Option Nat) :
    List Transaction × FinanceBook :=
  (b.for_year_and_month year month, b)

/-- Method `monthly_totals` as a call on the receiver. -/
def run_monthly_totals (b : FinanceBook) (year : Nat) :
    List (Nat × FinanceBook.Totals) × FinanceBook :=
  (b.monthly_totals year, b)

/-- Method `yearly_totals` as a call on the receiver. -/
def run_yearly_totals (b : FinanceBook) (year : Nat) :
    FinanceBook.Totals × FinanceBook :=
  (b.yearly_totals year, b)

/-- Method `category_totals` as a call on the receiver. -/
def run_category_totals (b : FinanceBook) (year : Nat) (kind : String)
    (month : Option Nat) : List (String × Rat) × FinanceBook :=
  (b.category_totals year kind month, b)

/-- C10: the six query operations leave the transaction sequence
unchanged; in the source only `add` and the `list.remove` deletion touch
`self.transactions`. -/
theorem claim_C10_queries_pure (b : FinanceBook) (todayYear year : Nat)
    (kind : String) (month : Option Nat) :
    (run_all_years b todayYear).2 = b ∧
    (run_for_year b year).2 = b ∧
    (run_for_year_and_month b year month).2 = b ∧
    (run_monthly_totals b year).2 = b ∧
    (run_yearly_totals b year).2 = b ∧
    (run_category_totals b year kind month).2 = b :=
  ⟨rfl, rfl, rfl, rfl, rfl, rfl⟩

/-- C8: `all_years` returns the distinct years of the ledger's dates,
strictly ascending (hence sorted and deduplicated); on an empty ledger it
returns exactly the current year. -/
theorem claim_C8_all_years (b : FinanceBook) (todayYear : Nat) :
    (b.transactions = [] → b.all_years todayYear = [todayYear]) ∧
    (b.transactions ≠ [] →
      (b.all_years todayYear).Pairwise (· < ·) ∧
      (∀ y, y ∈ b.all_years todayYear ↔ ∃ tx ∈ b.transactions, tx.date.year = y)) := by
  constructor
  · intro h
    simp [FinanceBook.all_years, h]
  · intro h
    have hL : (b.transactions.map (fun tx => tx.date.year)).dedup ≠ [] := by
      rw [Ne, List.dedup_eq_nil, List.map_eq_nil_iff]
      exact h
    have hS : ((b.transactions.map (fun tx => tx.date.year)).dedup).mergeSort
        (fun a b => decide (a ≤ b)) ≠ [] := by
      intro hc
      apply hL
      have := (List.mergeSort_perm
        (b.transactions.map (fun tx => tx.date.year)).dedup
        (fun a b => decide (a ≤ b))).symm.trans (List.Perm.of_eq hc)
      exact List.Perm.eq_nil this
    constructor
    · have hsorted := @List.sorted_mergeSort Nat
        (fun a b : Nat => decide (a ≤ b))
        (fun a b c hab hbc => by
          simp only [decide_eq_true_eq] at *
          exact le_trans hab hbc)
        (fun a b => by
          rcases le_total a b with h' | h'
          · simp [h']
          · simp [h'])
        (b.transactions.map (fun tx => tx.date.year)).dedup
      have hle : (((b.transactions.map (fun tx => tx.date.year)).dedup).mergeSort
          (fun a b => decide (a ≤ b))).Pairwise (· ≤ ·) :=
        hsorted.imp (by simp)
      have hnd : (((b.transactions.map (fun tx => tx.date.year)).dedup).mergeSort
          (fun a b => decide (a ≤ b))).Nodup :=
        ((List.mergeSort_perm _ _).nodup_iff).mpr
          (b.transactions.map (fun tx => tx.date.year)).nodup_dedup
      simp only [FinanceBook.all_years, if_neg hS]
      exact (hle.and hnd).imp (fun hp => lt_of_le_of_ne hp.1 hp.2)
    · intro y
      simp only [FinanceBook.all_years, if_neg hS, List.mem_mergeSort,
        List.mem_dedup, List.mem_map]

/-- A ledger with transactions in 2025, 2023 and again 2025. -/
def exYearsBook : FinanceBook := ⟨[
  ⟨⟨2025, 5, 1⟩, 1, "", "", "income"⟩,
  ⟨⟨2023, 4, 2⟩, 2, "", "", "income"⟩,
  ⟨⟨2025, 6, 3⟩, 3, "", "", "expense"⟩]⟩

theorem claim_C8_witness :
    ((⟨[]⟩ : FinanceBook).all_years 2030 = [2030]) ∧
    ((exYearsBook.all_years 1999).Pairwise (· < ·) ∧
      (∀ y, y ∈ exYearsBook.all_years 1999 ↔
        ∃ tx ∈ exYearsBook.transactions, tx.date.year = y)) :=
  ⟨(claim_C8_all_years ⟨[]⟩ 2030).1 rfl,
   (claim_C8_all_years exYearsBook 1999).2 (by decide)⟩

/-- The transactions `category_totals` aggregates: the year (and
optional month) filter of the source composed with its kind guard. -/
def matchingTxs (b : FinanceBook) (year : Nat) (kind : String)
    (month : Option Nat) : List Transaction :=
  (b.for_year_and_month year month).filter (fun tx => tx.kind == kind)

/-- Sum of `amount` over the transactions of `l` whose bucket label is
`label`. -/
def catSum (l : List Transaction) (label : String) : Rat :=
  sumAmounts (l.filter (fun tx => FinanceBook.bucketLabel tx == label))

/-- Written from the spec's words: the total `category_totals` should
report for `label`. -/
def specCatTotal (b : FinanceBook) (year : Nat) (kind : String)
    (month : Option Nat) (label : String) : Rat :=
  catSum (matchingTxs b year kind month) label

/-- The distinct elements of `l` in order of first appearance. -/
def firstSeen (l : List String) : List String :=
  l.foldl (fun acc x => if x ∈ acc then acc else acc ++ [x]) []

/-- Written from the spec's words: the distinct bucket labels among the
matching transactions, in first-seen insertion order. -/
def specCats (b : FinanceBook) (year : Nat) (kind : String)
    (month : Option Nat) : List String :=
  firstSeen ((matchingTxs b year kind month).map FinanceBook.bucketLabel)

/-- The `defaultdict(float)` accumulation of `category_totals`, over an
already-filtered transaction list. -/
def bucketsOf (l : List Transaction) : List (String × Rat) :=
  l.foldl (fun acc tx =>
    FinanceBook.addCat acc (FinanceBook.bucketLabel tx) tx.amount) []

theorem firstSeen_snoc (L : List String) (x : String) :
    firstSeen (L ++ [x]) =
      if x ∈ firstSeen L then firstSeen L else firstSeen L ++ [x] := by
  unfold firstSeen
  rw [List.foldl_append]
  rfl

theorem mem_firstSeen (L : List String) : ∀ x, x ∈ firstSeen L ↔ x ∈ L := by
  induction L using List.reverseRecOn with
  | nil => simp [firstSeen]
  | append_singleton L y ih =>
    intro x
    rw [firstSeen_snoc]
    by_cases h : y ∈ firstSeen L
    · rw [if_pos h, ih x, List.mem_append, List.mem_singleton]
      have hy := (ih y).mp h
      constructor
      · exact Or.inl
      · rintro (hx | rfl)
        exacts [hx, hy]
    · rw [if_neg h]
      simp [ih x]

theorem firstSeen_nodup (L : List String) : (firstSeen L).Nodup := by
  induction L using List.reverseRecOn with
  | nil => simp [firstSeen]
  | append_singleton L y ih =>
    rw [firstSeen_snoc]
    by_cases h : y ∈ firstSeen L
    · rw [if_pos h]
      exact ih
    · rw [if_neg h]
      refine List.Nodup.append ih (List.nodup_singleton y) ?_
      intro a ha hay
      rw [List.mem_singleton] at hay
      exact h (hay ▸ ha)

theorem catSum_snoc (l : List Transaction) (tx : Transaction) (label : String) :
    catSum (l ++ [tx]) label = catSum l label +
      (if FinanceBook.bucketLabel tx = label then tx.amount else 0) := by
  unfold catSum sumAmounts
  rw [List.filter_append, List.map_append, List.sum_append]
  congr 1
  by_cases h : FinanceBook.bucketLabel tx = label
  · simp [List.filter_cons, h]
  · simp [List.filter_cons, h]

theorem catSum_eq_zero_of_not_mem (l : List Transaction) (label : String)
    (h : label ∉ l.map FinanceBook.bucketLabel) : catSum l label = 0 := by
  unfold catSum sumAmounts
  have hnil : l.filter (fun tx => FinanceBook.bucketLabel tx == label) = [] := by
    rw [List.filter_eq_nil_iff]
    intro a ha hp
    rw [beq_iff_eq] at hp
    exact h (List.mem_map.mpr ⟨a, ha, hp⟩)
  rw [hnil]
  rfl

theorem addCat_any_iff (bs : List (String × Rat)) (label : String) :
    (bs.any (fun p => p.1 == label)) = true ↔ label ∈ bs.map Prod.fst := by
  simp only [List.any_eq_true, List.mem_map, beq_iff_eq]

theorem bucketsOf_eq (l : List Transaction) :
    bucketsOf l = (firstSeen (l.map FinanceBook.bucketLabel)).map
      (fun c => (c, catSum l c)) := by
  induction l using List.reverseRecOn with
  | nil => rfl
  | append_singleton l tx ih =>
    have hsnoc : bucketsOf (l ++ [tx]) =
        FinanceBook.addCat (bucketsOf l) (FinanceBook.bucketLabel tx) tx.amount := by
      unfold bucketsOf
      rw [List.foldl_append]
      rfl
    rw [hsnoc, ih, List.map_append, List.map_singleton, firstSeen_snoc]
    have hkeys : ((firstSeen (l.map FinanceBook.bucketLabel)).map
        (fun c => (c, catSum l c))).map Prod.fst =
          firstSeen (l.map FinanceBook.bucketLabel) := by
      rw [List.map_map]
      exact List.map_id _
    by_cases h : FinanceBook.bucketLabel tx ∈ firstSeen (l.map FinanceBook.bucketLabel)
    · rw [if_pos h]
      unfold FinanceBook.addCat
      rw [if_pos ((addCat_any_iff _ _).mpr (by rw [hkeys]; exact h))]
      rw [List.map_map]
      apply List.map_congr_left
      intro c _
      by_cases hc : c = FinanceBook.bucketLabel tx
      · subst hc
        simp [catSum_snoc]
      · have h1 : ¬ ((c, catSum l c) : String × Rat).1 = FinanceBook.bucketLabel tx := hc
        have h2 : ¬ FinanceBook.bucketLabel tx = c := fun he => hc he.symm
        simp [catSum_snoc, h1, h2]
    · rw [if_neg h]
      unfold FinanceBook.addCat
      have hany : ¬ ((firstSeen (l.map FinanceBook.bucketLabel)).map
          (fun c => (c, catSum l c))).any
            (fun p => p.1 == FinanceBook.bucketLabel tx) = true := by
        rw [addCat_any_iff, hkeys]
        exact h
      rw [if_neg hany, List.map_append, List.map_singleton]
      congr 1
      · apply List.map_congr_left
        intro c hc
        have hne : ¬ FinanceBook.bucketLabel tx = c := fun he => h (he ▸ hc)
        simp [catSum_snoc, hne]
      · have hz : catSum l (FinanceBook.bucketLabel tx) = 0 :=
          catSum_eq_zero_of_not_mem l _ (fun hm => h ((mem_firstSeen _ _).mpr hm))
        simp [catSum_snoc, hz]

theorem bucketsOf_keys (l : List Transaction) :
    (bucketsOf l).map Prod.fst = firstSeen (l.map FinanceBook.bucketLabel) := by
  rw [bucketsOf_eq, List.map_map]
  exact List.map_id _

theorem bucketsOf_nodup (l : List Transaction) : (bucketsOf l).Nodup := by
  rw [bucketsOf_eq]
  refine List.Nodup.map ?_ (firstSeen_nodup _)
  intro c1 c2 hc
  exact (Prod.ext_iff.mp hc).1

theorem pair_sublist_of_mem {α : Type} {a b : α} {l : List α}
    (ha : a ∈ l) (hb : b ∈ l) (hab : a ≠ b) :
    List.Sublist [a, b] l ∨ List.Sublist [b, a] l := by
  induction l with
  | nil => cases ha
  | cons x t ih =>
    rcases List.mem_cons.mp ha with rfl | ha'
    · have hb' : b ∈ t := by
        rcases List.mem_cons.mp hb with h' | h'
        · exact absurd h'.symm hab
        · exact h'
      exact Or.inl (List.Sublist.cons₂ a (List.singleton_sublist.mpr hb'))
    · rcases List.mem_cons.mp hb with rfl | hb'
      · exact Or.inr (List.Sublist.cons₂ b (List.singleton_sublist.mpr ha'))
      · rcases ih ha' hb' with h | h
        · exact Or.inl (h.cons x)
        · exact Or.inr (h.cons x)

theorem pair_sublist_antisymm {α : Type} {a b : α} {l : List α} (hnd : l.Nodup)
    (h1 : List.Sublist [a, b] l) (h2 : List.Sublist [b, a] l) : a = b := by
  induction l with
  | nil => simp at h1
  | cons x t ih =>
    rcases List.nodup_cons.mp hnd with ⟨hx, hnt⟩
    cases h1 with
    | cons _ h1' =>
      cases h2 with
      | cons _ h2' => exact ih hnt h1' h2'
      | cons₂ _ h2' => exact absurd (h1'.subset (by simp)) hx
    | cons₂ _ h1' =>
      cases h2 with
      | cons _ h2' => exact absurd (h2'.subset (by simp)) hx
      | cons₂ _ h2' => rfl

theorem category_fold_eq (l : List Transaction) (kind : String)
    (acc : List (String × Rat)) :
    l.foldl (fun acc tx => if tx.kind = kind then
        FinanceBook.addCat acc (FinanceBook.bucketLabel tx) tx.amount else acc) acc
      = (l.filter (fun tx => tx.kind == kind)).foldl
          (fun acc tx =>
            FinanceBook.addCat acc (FinanceBook.bucketLabel tx) tx.amount) acc := by
  induction l generalizing acc with
  | nil => rfl
  | cons tx l ih =>
    rw [List.filter_cons]
    by_cases h : tx.kind = kind
    · have hb : (tx.kind == kind) = true := by simp [h]
      rw [hb]
      simp only [List.foldl_cons, if_pos h]
      exact ih _
    · have hb : (tx.kind == kind) = false := by simp [h]
      rw [hb]
      simp only [List.foldl_cons, if_neg h, Bool.false_eq_true, if_false]
      exact ih _

theorem category_totals_eq (b : FinanceBook) (year : Nat) (kind : String)
    (month : Option Nat) :
    b.category_totals year kind month =
      (bucketsOf (matchingTxs b year kind month)).mergeSort
        (fun a b => decide (b.2 ≤ a.2)) := by
  simp only [FinanceBook.category_totals, matchingTxs, bucketsOf, category_fold_eq]

theorem mem_of_mem_for_year_and_month {b : FinanceBook} {year : Nat}
    {month : Option Nat} {tx : Transaction}
    (h : tx ∈ b.for_year_and_month year month) : tx ∈ b.transactions := by
  cases month with
  | none => exact (List.mem_filter.mp h).1
  | some m => exact (List.mem_filter.mp h).1

/-- C5: `category_totals` returns one pair per distinct bucket label of
the matching transactions (empty category replaced by
`"(uncategorized)"`), each total being the sum of `amount` over that
label's matching transactions (hence nonnegative when all amounts are),
sorted by total descending with ties kept in first-seen insertion
order. -/
theorem claim_C5_category_totals (b : FinanceBook) (year : Nat) (kind : String)
    (month : Option Nat) :
    ((b.category_totals year kind month).map Prod.fst).Perm
      (specCats b year kind month) ∧
    (∀ p ∈ b.category_totals year kind month,
      p.2 = specCatTotal b year kind month p.1) ∧
    (b.category_totals year kind month).Pairwise (fun p q => q.2 ≤ p.2) ∧
    (∀ p q, List.Sublist [p, q] (b.category_totals year kind month) →
      p.2 = q.2 → List.Sublist [p.1, q.1] (specCats b year kind month)) ∧
    ((∀ tx ∈ b.transactions, 0 ≤ tx.amount) →
      ∀ p ∈ b.category_totals year kind month, 0 ≤ p.2) := by
  have htrans : ∀ (x y z : String × Rat),
      (fun a b : String × Rat => decide (b.2 ≤ a.2)) x y →
      (fun a b : String × Rat => decide (b.2 ≤ a.2)) y z →
      (fun a b : String × Rat => decide (b.2 ≤ a.2)) x z := by
    intro x y z hxy hyz
    simp only [decide_eq_true_eq] at hxy hyz ⊢
    exact le_trans hyz hxy
  have htotal : ∀ (x y : String × Rat),
      (fun a b : String × Rat => decide (b.2 ≤ a.2)) x y
        || (fun a b : String × Rat => decide (b.2 ≤ a.2)) y x := by
    intro x y
    rcases le_total x.2 y.2 with h | h <;> simp [h]
  have hct := category_totals_eq b year kind month
  have hperm : (b.category_totals year kind month).Perm
      (bucketsOf (matchingTxs b year kind month)) := by
    rw [hct]
    exact List.mergeSort_perm _ _
  have hkeys : (bucketsOf (matchingTxs b year kind month)).map Prod.fst =
      specCats b year kind month := bucketsOf_keys _
  have hval : ∀ p ∈ bucketsOf (matchingTxs b year kind month),
      p.2 = catSum (matchingTxs b year kind month) p.1 := by
    intro p hp
    rw [bucketsOf_eq] at hp
    rcases List.mem_map.mp hp with ⟨c, _, rfl⟩
    rfl
  refine ⟨?_, ?_, ?_, ?_, ?_⟩
  · exact (hperm.map Prod.fst).trans (List.Perm.of_eq hkeys)
  · exact fun p hp => hval p (hperm.subset hp)
  · rw [hct]
    exact (List.sorted_mergeSort htrans htotal _).imp (by simp)
  · intro p q hsub heq
    have hndb : (bucketsOf (matchingTxs b year kind month)).Nodup := bucketsOf_nodup _
    have hndc : (b.category_totals year kind month).Nodup := hperm.nodup_iff.mpr hndb
    have hpq : p ≠ q := by
      intro hpqe
      subst hpqe
      have := hsub.nodup hndc
      simp at this
    have hp : p ∈ bucketsOf (matchingTxs b year kind month) :=
      hperm.subset (hsub.subset (by simp))
    have hq : q ∈ bucketsOf (matchingTxs b year kind month) :=
      hperm.subset (hsub.subset (by simp))
    rcases pair_sublist_of_mem hp hq hpq with h | h
    · have hm := h.map Prod.fst
      rw [hkeys] at hm
      exact hm
    · have hle : (fun a b : String × Rat => decide (b.2 ≤ a.2)) q p = true := by
        simp [heq]
      have hqp := List.pair_sublist_mergeSort htrans htotal hle h
      rw [← hct] at hqp
      exact absurd (pair_sublist_antisymm hndc hsub hqp) hpq
  · intro hpos p hp
    rw [hval p (hperm.subset hp)]
    unfold catSum sumAmounts
    apply List.sum_nonneg
    intro x hx
    rcases List.mem_map.mp hx with ⟨tx, htx, rfl⟩
    apply hpos
    have htx1 : tx ∈ matchingTxs b year kind month := (List.mem_filter.mp htx).1
    have htx2 : tx ∈ b.for_year_and_month year month :=
      (List.mem_filter.mp htx1).1
    exact mem_of_mem_for_year_and_month htx2

/-- A ledger whose categories B and A tie at total 5 (B seen first) and
C totals 9, all expenses of 2024. -/
def exTieBook : FinanceBook := ⟨[
  ⟨⟨2024, 1, 1⟩, 5, "", "B", "expense"⟩,
  ⟨⟨2024, 1, 2⟩, 5, "", "A", "expense"⟩,
  ⟨⟨2024, 1, 3⟩, 9, "", "C", "expense"⟩]⟩

theorem claim_C5_witness :
    List.Sublist ["B", "A"] (specCats exTieBook 2024 "expense" none) ∧
    (∀ p ∈ exTieBook.category_totals 2024 "expense" none, 0 ≤ p.2) := by
  have h := claim_C5_category_totals exTieBook 2024 "expense" none
  have heval : exTieBook.category_totals 2024 "expense" none
      = [("C", 9), ("B", 5), ("A", 5)] := by
    simp [FinanceBook.category_totals, FinanceBook.for_year_and_month,
      FinanceBook.for_year, FinanceBook.addCat, FinanceBook.bucketLabel,
      exTieBook, List.filter_cons, List.mergeSort, List.merge]
    norm_num
  constructor
  · have hsub : List.Sublist [(("B" : String), (5 : Rat)), ("A", 5)]
        (exTieBook.category_totals 2024 "expense" none) := by
      rw [heval]
      decide
    exact h.2.2.2.1 ("B", 5) ("A", 5) hsub rfl
  · exact h.2.2.2.2 (by decide)

end Finance
